import Mathlib

/-!
# drw.c: the drawing layer of dmenu-unicode

A shallow embedding of `src/drw.c`. The X11, Xft, fontconfig and Pango
libraries are outside the repository: every call into them that yields a
value is a field of `Backend`, and every call that draws or allocates is
recorded as an `Event`. Machine integers are `Int` (for `int`) and `Nat` (for
`unsigned int`, `size_t`), with the 32-bit wrap-around written out through
`toU32` and `toInt32`. Process termination (`exit`, `die`) and reads past the
end of a caller-supplied array are results of type `Err`.
-/

namespace DrwC

/-! ## Machine integers -/

/-- Conversion of an integer to `unsigned int`: reduction modulo 2^32. -/
def toU32 (z : Int) : Nat := (z % 4294967296).toNat

/-- Conversion of an integer to `int`: reduction modulo 2^32 into
[-2^31, 2^31). -/
def toInt32 (z : Int) : Int :=
  if toU32 z < 2147483648 then (toU32 z : Int) else (toU32 z : Int) - 4294967296

/-- The scale constant of the layout engine (`PANGO_SCALE` in pango/pango.h). -/
def PANGO_SCALE : Nat := 1024

/-! ## Data model -/

/-- How a run of the program can end without returning. The helpers `die`
and `ecalloc` are defined in util.c, which is not among the sources; by the
specification a fatal error prints a diagnostic and ends the process. -/
inductive Err where
  /-- A call of `exit` or `die`: the process stops. -/
  | exit
  /-- A read past the end of an array given by the caller. -/
  | outOfBounds
  deriving DecidableEq, Repr

/-- The handle `FcPattern *`. -/
structure FcPattern where
  id : Nat
  deriving DecidableEq, Repr

/-- The fields of `XftFont` that drw.c reads. -/
structure XftFont where
  ascent : Int
  descent : Int
  pattern : FcPattern
  deriving DecidableEq, Repr

/-- Modelled from the spec: the struct `Fnt` is declared in drw.h, which is
not among the sources. A pointer `Fnt *` is null, or a node with the fields
that drw.c uses: `xfont`, `pattern` (null when the font was opened from a
pattern), the line height `h` and `next` (the `dpy` field is a handle copied
from the surface). `h` is taken to be an `unsigned int`; as the parameter `h`
of `drw_text` is an `unsigned int`, the difference `h - usedfont->h` is
computed in `unsigned int` for every type of `usedfont->h` no wider than
`int`. -/
inductive FntPtr where
  | NULL : FntPtr
  | node (xfont : XftFont) (pattern : Option FcPattern) (h : Nat) (next : FntPtr) : FntPtr
  deriving DecidableEq, Repr

/-- One font of a chain, without its link. -/
structure FntData where
  xfont : XftFont
  pattern : Option FcPattern
  h : Nat
  deriving DecidableEq, Repr

/-- The colour `Clr` (an `XftColor`), reduced to its `pixel`. -/
structure Clr where
  pixel : Nat
  deriving DecidableEq, Repr

/-- Modelled from the spec: the enumeration of the colour roles is declared
in drw.h, which is not among the sources; the specification lists the roles
as foreground, background, so the index of the foreground colour is 0. -/
def ColFg : Nat := 0

/-- Modelled from the spec: the index of the background colour, the second
role of the enumeration in drw.h. -/
def ColBg : Nat := 1

/-- Modelled from the spec: the struct `Drw` is declared in drw.h, which is
not among the sources. The surface has its size, the active scheme and the
active font set; the display, screen, root window, drawable and graphics
context are handles that every backend call receives unchanged, and are left
out. `scheme` is `none` for a null pointer. -/
structure Drw where
  w : Nat
  h : Nat
  scheme : Option (List Clr)
  fonts : FntPtr
  deriving DecidableEq, Repr

/-- The handle `PangoFontDescription *`. -/
structure PangoFontDescription where
  id : Nat
  deriving DecidableEq, Repr

/-- One run produced by `pango_itemize`. -/
structure PangoItem where
  offset : Nat
  length : Nat
  font : Nat
  deriving DecidableEq, Repr

/-- The fields of `PangoRectangle` that drw.c reads. -/
structure PangoRectangle where
  x : Int
  width : Int
  deriving DecidableEq, Repr

/-- The calls into the libraries whose result drw.c uses. -/
structure Backend where
  /-- `XftFontOpenName(dpy, screen, name)`; `none` is a null result. -/
  XftFontOpenName : String → Option XftFont
  /-- `FcNameParse(name)`. -/
  FcNameParse : String → Option FcPattern
  /-- `XftFontOpenPattern(dpy, pattern)`. -/
  XftFontOpenPattern : FcPattern → Option XftFont
  /-- `XftColorAllocName(dpy, visual, colormap, name, dest)`; `none` is a zero
  result, `some c` is success with `*dest = c`. -/
  XftColorAllocName : String → Option Clr
  /-- `pango_fc_font_description_from_pattern(pattern, TRUE)`. -/
  pango_fc_font_description_from_pattern : FcPattern → Option PangoFontDescription
  /-- `pango_layout_get_size` of a layout with the given description and text:
  the logical width in layout units, an `int`. -/
  pango_layout_get_size : PangoFontDescription → String → Int
  /-- `pango_font_map_load_font(fontmap, context, desc)`; `none` is a null
  result. -/
  pango_font_map_load_font : PangoFontDescription → Option Nat
  /-- `pango_itemize` of the text in a context with the given description. -/
  pango_itemize : PangoFontDescription → String → List PangoItem
  /-- `pango_shape` followed by `pango_glyph_string_extents`: the ink
  rectangle of the shaped run. -/
  pango_glyph_string_extents : PangoItem → PangoRectangle

/-- The calls into the libraries that draw or allocate. -/
inductive Event where
  | XSetForeground (pixel : Nat)
  | XFillRectangle (x y : Int) (w h : Nat)
  | XDrawRectangle (x y : Int) (w h : Nat)
  | XftDrawCreate
  | XftDrawDestroy
  | pango_xft_render (color : Clr) (item : PangoItem) (x y : Int)
  | XftColorAllocName (name : String)
  deriving DecidableEq, Repr

/-- The fonts of a chain from head to tail. -/
def FntPtr.toList : FntPtr → List FntData
  | .NULL => []
  | .node xfont pattern h next => ⟨xfont, pattern, h⟩ :: next.toList

/-- The number of fonts of a chain. -/
def FntPtr.length (p : FntPtr) : Nat := p.toList.length

/-! ## Font sets -/

/-- The function `xfont_create`. `none` is a null result (the error is
printed on stderr), `Err.exit` is the call of `die`. The new node has a null
`next` (`ecalloc` zeroes it); the result is the node's data. -/
def xfont_create (B : Backend) (fontname : Option String) (fontpattern : Option FcPattern) :
    Except Err (Option FntData) :=
  match fontname with
  | some name =>
    match B.XftFontOpenName name with
    | none => .ok none
    | some xfont =>
      match B.FcNameParse name with
      | none => .ok none
      | some pattern => .ok (some ⟨xfont, some pattern, toU32 (xfont.ascent + xfont.descent)⟩)
  | none =>
    match fontpattern with
    | some fp =>
      match B.XftFontOpenPattern fp with
      | none => .ok none
      | some xfont => .ok (some ⟨xfont, none, toU32 (xfont.ascent + xfont.descent)⟩)
    | none => .error .exit

/-- One pass through the body of the loop of `drw_fontset_create`, for the
index `i`. -/
def drw_fontset_create_body (B : Backend) (fonts : List (Option String)) (fontcount : Nat)
    (ret : FntPtr) (i : Nat) : Except Err FntPtr :=
  match fonts[fontcount - i]? with
  | none => .error .outOfBounds
  | some fontname =>
    match xfont_create B fontname none with
    | .error e => .error e
    | .ok none => .ok ret
    | .ok (some cur) => .ok (.node cur.xfont cur.pattern cur.h ret)

/-- The function `drw_fontset_create`: the returned chain and the surface
after the call. The loop runs `i` over 1, ..., `fontcount`. -/
def drw_fontset_create (B : Backend) (drw : Option Drw) (fonts : Option (List (Option String)))
    (fontcount : Nat) : Except Err (FntPtr × Option Drw) :=
  match drw, fonts with
  | none, _ => .ok (.NULL, none)
  | some d, none => .ok (.NULL, some d)
  | some d, some fonts =>
    match (List.range' 1 fontcount).foldlM (drw_fontset_create_body B fonts fontcount) .NULL with
    | .error e => .error e
    | .ok ret => .ok (ret, some { d with fonts := ret })

/-- Font loading as a partial function from name to font: what
`xfont_create` yields for a name. -/
def loadFont (B : Backend) (name : String) : Option FntData :=
  match B.XftFontOpenName name with
  | none => none
  | some xfont =>
    match B.FcNameParse name with
    | none => none
    | some pattern => some ⟨xfont, some pattern, toU32 (xfont.ascent + xfont.descent)⟩

/-- The chain whose fonts from head to tail are those of a list. -/
def FntPtr.ofList : List FntData → FntPtr
  | [] => .NULL
  | f :: fs => .node f.xfont f.pattern f.h (FntPtr.ofList fs)

/-! ## Colour schemes -/

/-- The function `drw_clr_create`: the contents of `*dest` after the call
(`none` for a null `dest`) and the allocation requests made. `Err.exit` is the
call of `die` when the colour cannot be allocated. -/
def drw_clr_create (B : Backend) (drw : Option Drw) (dest : Option Clr)
    (clrname : Option String) : Except Err (Option Clr × List Event) :=
  match drw, dest, clrname with
  | none, _, _ => .ok (dest, [])
  | some _, none, _ => .ok (dest, [])
  | some _, some _, none => .ok (dest, [])
  | some _, some _, some name =>
    match B.XftColorAllocName name with
    | none => .error .exit
    | some c => .ok (some c, [Event.XftColorAllocName name])

/-- One pass through the body of the loop of `drw_scm_create`, for the index
`i`: the array `ret` and the requests made so far. -/
def drw_scm_create_body (B : Backend) (drw : Option Drw) (clrnames : List (Option String))
    (st : List Clr × List Event) (i : Nat) : Except Err (List Clr × List Event) :=
  match clrnames[i]? with
  | none => .error .outOfBounds
  | some clrname =>
    match drw_clr_create B drw (st.1)[i]? clrname with
    | .error e => .error e
    | .ok (none, ev) => .ok (st.1, st.2 ++ ev)
    | .ok (some c, ev) => .ok ((st.1).set i c, st.2 ++ ev)

/-- The function `drw_scm_create`: the returned array (`none` for null) and
the allocation requests made. `ecalloc` yields `clrcount` zeroed entries (it
ends the process itself when memory runs out, which is not modelled). -/
def drw_scm_create (B : Backend) (drw : Option Drw) (clrnames : Option (List (Option String)))
    (clrcount : Nat) : Except Err (Option (List Clr) × List Event) :=
  match drw, clrnames with
  | none, _ => .ok (none, [])
  | some _, none => .ok (none, [])
  | some d, some names =>
    if clrcount < 2 then .ok (none, [])
    else
      match (List.range clrcount).foldlM (drw_scm_create_body B (some d) names)
          (List.replicate clrcount ⟨0⟩, []) with
      | .error e => .error e
      | .ok (ret, ev) => .ok (some ret, ev)

/-- The function `drw_setfontset`. -/
def drw_setfontset (drw : Option Drw) (set : FntPtr) : Option Drw :=
  match drw with
  | none => none
  | some d => some { d with fonts := set }

/-- The function `drw_setscheme`. -/
def drw_setscheme (drw : Option Drw) (scm : Option (List Clr)) : Option Drw :=
  match drw with
  | none => none
  | some d => some { d with scheme := scm }

/-! ## Rectangles -/

/-- The function `drw_rect`: the requests made. The sizes `w - 1` and `h - 1`
are computed in `unsigned int`. -/
def drw_rect (drw : Option Drw) (x y : Int) (w h : Nat) (filled invert : Int) :
    Except Err (List Event) :=
  match drw with
  | none => .ok []
  | some d =>
    match d.scheme with
    | none => .ok []
    | some scheme =>
      match scheme[if invert ≠ 0 then ColBg else ColFg]? with
      | none => .error .outOfBounds
      | some c =>
        .ok [Event.XSetForeground c.pixel,
             if filled ≠ 0 then Event.XFillRectangle x y w h
             else Event.XDrawRectangle x y (toU32 ((w : Int) - 1)) (toU32 ((h : Int) - 1))]

/-- The far corner of the outline that a request `XDrawRectangle(x, y, width,
height)` draws: by the Xlib convention the outline runs from `x` to
`x + width` and from `y` to `y + height`, both ends included. -/
def outlineFarCorner : Event → Option (Int × Int)
  | .XDrawRectangle x y w h => some (x + w, y + h)
  | _ => none

/-! ## Text -/

/-- The function `get_text_width` on the layout of a text under a font
description: `pango_layout_get_size` writes an `int` into `*width`, which is
then divided as an `unsigned int`. -/
def get_text_width (B : Backend) (fontdes : PangoFontDescription) (text : String) : Nat :=
  toU32 (B.pango_layout_get_size fontdes text) / PANGO_SCALE

/-- The function `pango_get_extents`: the value written to `*width`. -/
def pango_get_extents (B : Backend) (xfont : XftFont) (text : String) : Except Err Nat :=
  match B.pango_fc_font_description_from_pattern xfont.pattern with
  | none => .error .exit
  | some fontdes => .ok (get_text_width B fontdes text)

/-- The extent `rect.x + rect.width` of a shaped run, in layout units. -/
def runExtent (B : Backend) (item : PangoItem) : Int :=
  (B.pango_glyph_string_extents item).x + (B.pango_glyph_string_extents item).width

/-- The loop of `x_blit` over the items: the final value of `x` and the
render requests made. Each run is rendered at the current `x`, which then
advances by the run's extent divided by `PANGO_SCALE` (the division of `int`
rounds toward zero; `int` overflow is taken to wrap). -/
def x_blit_loop (B : Backend) (xftcol : Clr) (y : Int) : List PangoItem → Int → Int × List Event
  | [], x => (x, [])
  | item :: items, x =>
    let r := x_blit_loop B xftcol y items
      (toInt32 (x + (toInt32 (runExtent B item)).tdiv PANGO_SCALE))
    (r.1, Event.pango_xft_render xftcol item x y :: r.2)

/-- The function `x_blit`: the render requests made. -/
def x_blit (B : Backend) (xftcol : Clr) (xfont : XftFont) (text : String) (x y : Int) :
    Except Err (List Event) :=
  match B.pango_fc_font_description_from_pattern xfont.pattern with
  | none => .error .exit
  | some fontdes =>
    match B.pango_font_map_load_font fontdes with
    | none => .error .exit
    | some _ => .ok (x_blit_loop B xftcol y (B.pango_itemize fontdes text) x).2

/-- The variable `utf8strlen` of `drw_text`: `strlen(text)`, a `size_t`,
converted to `int`. A text is a string without the NUL character, and its
`strlen` is the number of bytes of its UTF-8 encoding. -/
def utf8strlen (text : String) : Int := toInt32 text.utf8ByteSize

/-- The function `drw_text`: the returned `int` and the requests made.
`XftDrawCreate` is taken to succeed, so that `d` is non-null exactly in render
mode. The parameters `w`, `h` and `lpad` are `unsigned int`, so the sums and
differences that involve them are computed modulo 2^32, also
`h - usedfont->h`, and `x` and `ty` receive them converted back to `int`. -/
def drw_text (B : Backend) (drw : Option Drw) (x y : Int) (w h lpad : Nat)
    (text : Option String) (invert : Int) : Except Err (Int × List Event) :=
  let render : Bool := x != 0 || y != 0 || w != 0 || h != 0
  match drw with
  | none => .ok (0, [])
  | some d =>
    match text, d.fonts with
    | none, _ => .ok (0, [])
    | some _, .NULL => .ok (0, [])
    | some text, .node xfont _ fh _ =>
      if render && d.scheme.isNone then .ok (0, [])
      else
        -- `if (!render) w = ~w; else { fill the box; x += lpad; w -= lpad; }`
        let prologue : Except Err (Int × Nat × List Event) :=
          if !render then .ok (x, toU32 (4294967295 - (w : Int)), [])
          else
            match (d.scheme.getD [])[if invert ≠ 0 then ColFg else ColBg]? with
            | none => .error .outOfBounds
            | some bg =>
              .ok (toInt32 (x + lpad), toU32 ((w : Int) - lpad),
                   [Event.XSetForeground bg.pixel, Event.XFillRectangle x y w h,
                    Event.XftDrawCreate])
        match prologue with
        | .error e => .error e
        | .ok (x1, w1, ev1) =>
          -- `utf8strlen = strlen(text); if (utf8strlen) { ... }`
          let body : Except Err (Int × Nat × List Event) :=
            if utf8strlen text ≠ 0 then
              match pango_get_extents B xfont text with
              | .error e => .error e
              | .ok ew =>
                let blit : Except Err (List Event) :=
                  if render then
                    match (d.scheme.getD [])[if invert ≠ 0 then ColBg else ColFg]? with
                    | none => .error .outOfBounds
                    | some fg =>
                      x_blit B fg xfont text x1
                        (toInt32 (y + (toU32 ((h : Int) - fh) / 2 : Nat) + xfont.ascent))
                  else .ok []
                match blit with
                | .error e => .error e
                | .ok ev2 => .ok (toInt32 (x1 + ew), toU32 ((w1 : Int) - ew), ev2)
            else .ok (x1, w1, [])
          match body with
          | .error e => .error e
          | .ok (x2, w2, ev2) =>
            .ok (toInt32 (x2 + (if render then w2 else 0 : Nat)),
                 ev1 ++ ev2 ++ (if render then [Event.XftDrawDestroy] else []))

/-- The function `drw_fontset_getwidth`: the returned `unsigned int` and the
requests made. -/
def drw_fontset_getwidth (B : Backend) (drw : Option Drw) (text : Option String) :
    Except Err (Nat × List Event) :=
  match drw with
  | none => .ok (0, [])
  | some d =>
    match d.fonts, text with
    | .NULL, _ => .ok (0, [])
    | .node _ _ _ _, none => .ok (0, [])
    | .node _ _ _ _, some text =>
      match drw_text B (some d) 0 0 0 0 0 (some text) 0 with
      | .error e => .error e
      | .ok (r, ev) => .ok (toU32 r, ev)

/-- The measure of a text under a font description, following the words of
the specification (not the code): 0 for a text of length zero, and otherwise
the layout's logical width in layout units, floor-divided by `PANGO_SCALE`. -/
def measure (B : Backend) (fontdes : PangoFontDescription) (text : String) : Int :=
  if text.utf8ByteSize = 0 then 0 else B.pango_layout_get_size fontdes text / PANGO_SCALE

/-! ## Examples -/

/-- A backend for examples: every name but "bad" opens a font of ascent 15
and descent 5 whose pattern is numbered by the length of the name, colour
names are allocated except "nocolor", and a text has one run per character,
each 8 pixels wide. -/
def demoBackend : Backend where
  XftFontOpenName := fun name =>
    if name = "bad" then none else some ⟨15, 5, ⟨name.length⟩⟩
  FcNameParse := fun name => some ⟨name.length⟩
  XftFontOpenPattern := fun p => some ⟨15, 5, p⟩
  XftColorAllocName := fun name =>
    if name = "nocolor" then none
    else if name = "white" then some ⟨16777215⟩
    else if name = "black" then some ⟨0⟩
    else some ⟨name.length⟩
  pango_fc_font_description_from_pattern := fun p => some ⟨p.id⟩
  pango_layout_get_size := fun _ text => 8192 * text.length
  pango_font_map_load_font := fun d => some d.id
  pango_itemize := fun _ text => (List.range text.length).map (fun i => ⟨i, 1, 0⟩)
  pango_glyph_string_extents := fun _ => ⟨0, 8192⟩

/-- A backend for examples in which every text has two runs, each with an
extent of half a pixel (512 layout units), and a layout width of one pixel. -/
def halfPixelBackend : Backend :=
  { demoBackend with
    pango_layout_get_size := fun _ _ => 1024
    pango_itemize := fun _ _ => [⟨0, 1, 0⟩, ⟨1, 1, 0⟩]
    pango_glyph_string_extents := fun _ => ⟨0, 512⟩ }

/-- A font set for examples: the one font that `demoBackend` opens for the
name "monospace", of line height 20. -/
def demoFonts : FntPtr := .node ⟨15, 5, ⟨9⟩⟩ (some ⟨9⟩) 20 .NULL

/-- A scheme for examples: white foreground, black background. -/
def demoScheme : List Clr := [⟨16777215⟩, ⟨0⟩]

/-- A surface for examples, 200 by 20, with `demoScheme` and `demoFonts`. -/
def demoDrw : Drw := ⟨200, 20, some demoScheme, demoFonts⟩

/-! ## Theorems -/

/-! ### Arithmetic modulo 2^32 -/

theorem toU32_cast (z : Int) : ((toU32 z : Nat) : Int) = z % 4294967296 := by
  unfold toU32; omega

theorem toInt32_emod (z : Int) : toInt32 z % 4294967296 = z % 4294967296 := by
  unfold toInt32 toU32; split <;> omega

theorem toInt32_congr {a b : Int} (h : a % 4294967296 = b % 4294967296) :
    toInt32 a = toInt32 b := by
  unfold toInt32 toU32; rw [h]

theorem toU32_congr {a b : Int} (h : a % 4294967296 = b % 4294967296) :
    toU32 a = toU32 b := by
  unfold toU32; rw [h]

theorem toInt32_of_range {z : Int} (h1 : -2147483648 ≤ z) (h2 : z < 2147483648) :
    toInt32 z = z := by
  unfold toInt32 toU32; split <;> omega

theorem toU32_of_range {z : Int} (h1 : 0 ≤ z) (h2 : z < 4294967296) :
    (toU32 z : Int) = z := by
  unfold toU32; omega

/-! ### Font sets -/

theorem FntPtr.toList_ofList (l : List FntData) : (FntPtr.ofList l).toList = l := by
  induction l with
  | nil => rfl
  | cons f fs ih => simp [FntPtr.ofList, FntPtr.toList, ih]

theorem xfont_create_name (B : Backend) (name : String) :
    xfont_create B (some name) none = .ok (loadFont B name) := by
  simp only [xfont_create, loadFont]
  cases B.XftFontOpenName name with
  | none => rfl
  | some xfont => cases B.FcNameParse name <;> rfl

theorem drw_fontset_create_body_name (B : Backend) (names : List String) (c i : Nat)
    (ret : FntPtr) (name : String) (h : names[c - i]? = some name) :
    drw_fontset_create_body B (names.map some) c ret i
      = .ok (match loadFont B name with
             | none => ret
             | some cur => .node cur.xfont cur.pattern cur.h ret) := by
  unfold drw_fontset_create_body
  rw [List.getElem?_map, h]
  simp only [Option.map_some', xfont_create_name]
  cases loadFont B name <;> rfl

theorem drw_fontset_create_loop (B : Backend) (names : List String) (k : Nat)
    (hk : k ≤ names.length) :
    (List.range' 1 k).foldlM (drw_fontset_create_body B (names.map some) names.length) .NULL
      = .ok (FntPtr.ofList ((names.drop (names.length - k)).filterMap (loadFont B))) := by
  induction k with
  | zero => simp [FntPtr.ofList]; rfl
  | succ k ih =>
    have hlt : names.length - (k + 1) < names.length := by omega
    rw [List.range'_1_concat, List.foldlM_append, ih (by omega)]
    have hget : names[names.length - (1 + k)]? = some (names[names.length - (k + 1)]) := by
      rw [Nat.add_comm 1 k]; exact List.getElem?_eq_getElem hlt
    simp only [List.foldlM_cons, List.foldlM_nil, bind, Except.bind]
    rw [drw_fontset_create_body_name B names _ _ _ _ hget]
    have hdrop : names.drop (names.length - (k + 1))
        = names[names.length - (k + 1)] :: names.drop (names.length - k) := by
      rw [List.drop_eq_getElem_cons hlt]
      congr 2; omega
    rw [hdrop, List.filterMap_cons]
    cases loadFont B (names[names.length - (k + 1)]) <;> rfl

/-- C1: for a surface and a list of font names, `drw_fontset_create` returns
the chain whose fonts from head to tail are the fonts loaded from the names
that load, in the order of the input, and makes that chain the font set of the
surface; when no name loads (in particular for the empty list) the chain is
null. -/
theorem drw_fontset_create_order (B : Backend) (d : Drw) (names : List String) :
    drw_fontset_create B (some d) (some (names.map some)) names.length
      = .ok (FntPtr.ofList (names.filterMap (loadFont B)),
             some { d with fonts := FntPtr.ofList (names.filterMap (loadFont B)) })
    ∧ (FntPtr.ofList (names.filterMap (loadFont B))).toList = names.filterMap (loadFont B)
    ∧ ((∀ n ∈ names, loadFont B n = none) →
        drw_fontset_create B (some d) (some (names.map some)) names.length
          = .ok (.NULL, some { d with fonts := .NULL })) := by
  have hmain : drw_fontset_create B (some d) (some (names.map some)) names.length
      = .ok (FntPtr.ofList (names.filterMap (loadFont B)),
             some { d with fonts := FntPtr.ofList (names.filterMap (loadFont B)) }) := by
    unfold drw_fontset_create
    simp only [drw_fontset_create_loop B names names.length (le_refl _), Nat.sub_self,
      List.drop_zero]
  refine ⟨hmain, FntPtr.toList_ofList _, fun hnone => ?_⟩
  have hnil : names.filterMap (loadFont B) = [] := by
    rw [List.filterMap_eq_nil_iff]
    exact hnone
  rw [hmain, hnil]
  rfl

/-- Witness for C1: under the example backend the names "A", "bad", "C" give
the chain of the fonts of "A" and "C", and the single name "bad" gives the
null chain. -/
theorem drw_fontset_create_order_witness :
    drw_fontset_create demoBackend (some demoDrw) (some (["A", "bad", "CC"].map some)) 3
      = .ok (FntPtr.ofList (["A", "bad", "CC"].filterMap (loadFont demoBackend)),
             some { demoDrw with
               fonts := FntPtr.ofList (["A", "bad", "CC"].filterMap (loadFont demoBackend)) })
    ∧ ["A", "bad", "CC"].filterMap (loadFont demoBackend)
        = [⟨⟨15, 5, ⟨1⟩⟩, some ⟨1⟩, 20⟩, ⟨⟨15, 5, ⟨2⟩⟩, some ⟨2⟩, 20⟩]
    ∧ (FntPtr.ofList (["A", "bad", "CC"].filterMap (loadFont demoBackend))).length = 2
    ∧ drw_fontset_create demoBackend (some demoDrw) (some (["bad"].map some)) 1
        = .ok (.NULL, some { demoDrw with fonts := .NULL }) :=
  ⟨(drw_fontset_create_order demoBackend demoDrw ["A", "bad", "CC"]).1, by decide, by decide,
   (drw_fontset_create_order demoBackend demoDrw ["bad"]).2.2 (by decide)⟩

/-! ### Rectangles -/

theorem scheme_index (scm : List Clr) (hl : 2 ≤ scm.length) (c : Prop) [Decidable c]
    (i j : Nat) (hi : i < 2) (hj : j < 2) :
    ∃ col, scm[if c then i else j]? = some col := by
  have : (if c then i else j) < scm.length := by split <;> omega
  exact ⟨_, List.getElem?_eq_getElem this⟩

/-- C8: with `filled = 0` on a surface with an active scheme, `drw_rect` sets
the foreground and requests an outline with origin (x, y), width `w - 1` and
height `h - 1` (in `unsigned int`), whose far corner is therefore at
(x + (w - 1), y + (h - 1)); for `w`, `h` of at least 1 these are the plain
differences, and for w = 10, h = 5 the corner is (x + 9, y + 4). With
`filled` non-zero the fill request has the size (x, y, w, h). -/
theorem drw_rect_outline (d : Drw) (scm : List Clr) (x y : Int) (w h : Nat) (invert : Int)
    (hs : d.scheme = some scm) (hl : 2 ≤ scm.length) :
    ∃ c, scm[if invert ≠ 0 then ColBg else ColFg]? = some c
      ∧ drw_rect (some d) x y w h 0 invert
          = .ok [Event.XSetForeground c.pixel,
                 Event.XDrawRectangle x y (toU32 ((w : Int) - 1)) (toU32 ((h : Int) - 1))]
      ∧ outlineFarCorner (Event.XDrawRectangle x y (toU32 ((w : Int) - 1)) (toU32 ((h : Int) - 1)))
          = some (x + toU32 ((w : Int) - 1), y + toU32 ((h : Int) - 1))
      ∧ (1 ≤ w → w ≤ 4294967296 → toU32 ((w : Int) - 1) = w - 1)
      ∧ (1 ≤ h → h ≤ 4294967296 → toU32 ((h : Int) - 1) = h - 1)
      ∧ outlineFarCorner (Event.XDrawRectangle x y (toU32 ((10 : Nat) - 1)) (toU32 ((5 : Nat) - 1)))
          = some (x + 9, y + 4)
      ∧ (∀ filled : Int, filled ≠ 0 →
          drw_rect (some d) x y w h filled invert
            = .ok [Event.XSetForeground c.pixel, Event.XFillRectangle x y w h]) := by
  obtain ⟨c, hc⟩ := scheme_index scm hl (invert ≠ 0) ColBg ColFg (by decide) (by decide)
  have hc2 := hc
  simp only [ne_eq, ite_not] at hc2
  refine ⟨c, hc, ?_, rfl, ?_, ?_, ?_, ?_⟩
  · simp [drw_rect, hs, hc2]
  · intro h1 h2; unfold toU32; omega
  · intro h1 h2; unfold toU32; omega
  · simp [outlineFarCorner, toU32]
  · intro filled hf
    simp [drw_rect, hs, hc2, hf]

/-- Witness for C8: the outline of a 10 by 5 box at (3, 4) on the example
surface. -/
theorem drw_rect_outline_witness :
    ∃ c, demoScheme[if (0 : Int) ≠ 0 then ColBg else ColFg]? = some c
      ∧ drw_rect (some demoDrw) 3 4 10 5 0 0
          = .ok [Event.XSetForeground c.pixel, Event.XDrawRectangle 3 4 9 4] := by
  obtain ⟨c, hc, hr, -⟩ := drw_rect_outline demoDrw demoScheme 3 4 10 5 0 rfl (by decide)
  exact ⟨c, hc, hr⟩

/-! ### Text: the guards -/

/-- C5: `drw_text` returns 0 and makes no request when the surface is null,
or some of x, y, w, h is non-zero and the surface has no scheme, or the text
is null, or the surface has no font set, whatever the other arguments. -/
theorem drw_text_guard (B : Backend) (drw : Option Drw) (x y : Int) (w h lpad : Nat)
    (text : Option String) (invert : Int)
    (hg : drw = none
      ∨ (∃ d, drw = some d ∧ (x ≠ 0 ∨ y ≠ 0 ∨ w ≠ 0 ∨ h ≠ 0) ∧ d.scheme = none)
      ∨ text = none
      ∨ (∃ d, drw = some d ∧ d.fonts = .NULL)) :
    drw_text B drw x y w h lpad text invert = .ok (0, []) := by
  rcases hg with h1 | ⟨d, hd, hr, hs⟩ | h3 | ⟨d, hd, hf⟩
  · subst h1; rfl
  · subst hd
    have hr2 : (x != 0 || y != 0 || w != 0 || h != 0) = true := by
      simp only [Bool.or_eq_true, bne_iff_ne]; tauto
    cases text with
    | none => rfl
    | some t =>
      cases hfo : d.fonts with
      | NULL => unfold drw_text; simp [hfo]
      | node a b c e => unfold drw_text; simp [hfo, hr2, hs]
  · subst h3
    cases drw with
    | none => rfl
    | some d => rfl
  · subst hd
    cases text with
    | none => rfl
    | some t => unfold drw_text; simp [hf]

/-- Witness for C5: a render-mode call on a surface without a scheme. -/
theorem drw_text_guard_witness :
    drw_text demoBackend (some { demoDrw with scheme := none }) 0 0 200 20 2 (some "Hi") 0
      = .ok (0, []) :=
  drw_text_guard demoBackend _ 0 0 200 20 2 (some "Hi") 0
    (Or.inr (Or.inl ⟨_, rfl, Or.inr (Or.inr (Or.inl (by decide))), rfl⟩))

/-! ### Text: the two modes -/

theorem wrap_cancel (x w lpad ew : Int) :
    toInt32 (toInt32 (toInt32 (x + lpad) + ew)
      + ((toU32 ((toU32 (w - lpad) : Int) - ew) : Nat) : Int)) = toInt32 (x + w) := by
  apply toInt32_congr
  have h1 := toInt32_emod (toInt32 (x + lpad) + ew)
  have h2 := toInt32_emod (x + lpad)
  have h3 := toU32_cast ((toU32 (w - lpad) : Int) - ew)
  have h4 := toU32_cast (w - lpad)
  omega

theorem wrap_cancel_pad (x w lpad : Int) :
    toInt32 (toInt32 (x + lpad) + ((toU32 (w - lpad) : Nat) : Int)) = toInt32 (x + w) := by
  apply toInt32_congr
  have h2 := toInt32_emod (x + lpad)
  have h4 := toU32_cast (w - lpad)
  omega

theorem drw_text_render_eq (B : Backend) (d : Drw) (scm : List Clr) (bg fg : Clr)
    (xfont : XftFont) (pat : Option FcPattern) (fh : Nat) (next : FntPtr)
    (x y : Int) (w h lpad : Nat) (text : String) (invert : Int)
    (hr : x ≠ 0 ∨ y ≠ 0 ∨ w ≠ 0 ∨ h ≠ 0) (hs : d.scheme = some scm)
    (hf : d.fonts = .node xfont pat fh next)
    (hbg : scm[if invert ≠ 0 then ColFg else ColBg]? = some bg)
    (hfg : scm[if invert ≠ 0 then ColBg else ColFg]? = some fg) :
    drw_text B (some d) x y w h lpad (some text) invert
      = if utf8strlen text ≠ 0 then
          match pango_get_extents B xfont text with
          | .error e => .error e
          | .ok _ =>
            match x_blit B fg xfont text (toInt32 (x + lpad))
                (toInt32 (y + (toU32 ((h : Int) - fh) / 2 : Nat) + xfont.ascent)) with
            | .error e => .error e
            | .ok ev2 =>
              .ok (toInt32 (x + w),
                   [Event.XSetForeground bg.pixel, Event.XFillRectangle x y w h,
                    Event.XftDrawCreate] ++ ev2 ++ [Event.XftDrawDestroy])
        else
          .ok (toInt32 (x + w),
               [Event.XSetForeground bg.pixel, Event.XFillRectangle x y w h,
                Event.XftDrawCreate, Event.XftDrawDestroy]) := by
  have hr2 : (x != 0 || y != 0 || w != 0 || h != 0) = true := by
    simp only [Bool.or_eq_true, bne_iff_ne]; tauto
  unfold drw_text
  simp only [hf, hs, hr2, Option.getD_some, hbg, hfg, Option.isNone_some, Bool.and_false,
    Bool.not_true, if_true, if_false, Bool.false_eq_true]
  by_cases hlen : utf8strlen text = 0
  · simp only [hlen, ne_eq, not_true_eq_false, if_false, wrap_cancel_pad]
    rfl
  · simp only [hlen, ne_eq, not_false_eq_true, if_true]
    cases pango_get_extents B xfont text with
    | error e => rfl
    | ok ew =>
      simp only []
      cases x_blit B fg xfont text (toInt32 (x + lpad))
          (toInt32 (y + (toU32 ((h : Int) - fh) / 2 : Nat) + xfont.ascent)) with
      | error e => rfl
      | ok ev2 => simp only [wrap_cancel]


theorem drw_text_measure_eq (B : Backend) (d : Drw)
    (xfont : XftFont) (pat : Option FcPattern) (fh : Nat) (next : FntPtr)
    (lpad : Nat) (text : String) (invert : Int)
    (hf : d.fonts = .node xfont pat fh next) :
    drw_text B (some d) 0 0 0 0 lpad (some text) invert
      = if utf8strlen text ≠ 0 then
          match pango_get_extents B xfont text with
          | .error e => .error e
          | .ok ew => .ok (toInt32 ew, [])
        else .ok (0, []) := by
  unfold drw_text
  simp only [hf, bne_self_eq_false, Bool.or_self, Bool.false_and, Bool.not_false, if_true,
    if_false, Bool.false_eq_true]
  by_cases hlen : utf8strlen text = 0
  · simp only [hlen, ne_eq, not_true_eq_false, if_false]
    rfl
  · simp only [hlen, ne_eq, not_false_eq_true, if_true]
    cases pango_get_extents B xfont text with
    | error e => rfl
    | ok ew =>
      have h : toInt32 (toInt32 (0 + (ew : Int)) + ((0 : Nat) : Int)) = toInt32 ew := by
        apply toInt32_congr
        have h1 := toInt32_emod (0 + (ew : Int))
        omega
      simp only [h, List.append_nil]

theorem utf8strlen_ne_zero (text : String) (hlen : text.utf8ByteSize < 4294967296) :
    utf8strlen text ≠ 0 ↔ text.utf8ByteSize ≠ 0 := by
  unfold utf8strlen toInt32 toU32; split <;> omega

theorem get_text_width_eq_measure (B : Backend) (fd : PangoFontDescription) (text : String)
    (hne : text.utf8ByteSize ≠ 0)
    (hw0 : 0 ≤ B.pango_layout_get_size fd text)
    (hw1 : B.pango_layout_get_size fd text < 2147483648) :
    (get_text_width B fd text : Int) = measure B fd text
    ∧ toInt32 (get_text_width B fd text) = measure B fd text := by
  unfold get_text_width measure toInt32 toU32 PANGO_SCALE
  simp only [hne, if_false]
  constructor
  · omega
  · split <;> omega

/-- C2: on a surface with a font set, for a text of fewer than 2^32 bytes
which, when not empty, has a font description and a layout width that is a
non-negative `int`, the measure-mode call
`drw_text(drw, 0,0,0,0, 0, text, 0)` returns `measure` of the text under the
head font and makes no request; so does `drw_fontset_getwidth`; and the result
is the same whatever scheme the surface has, none included. -/
theorem drw_text_measure_mode (B : Backend) (d : Drw)
    (xfont : XftFont) (pat : Option FcPattern) (fh : Nat) (next : FntPtr)
    (text : String) (fd : PangoFontDescription)
    (hf : d.fonts = .node xfont pat fh next)
    (hlen : text.utf8ByteSize < 4294967296)
    (hmeas : text.utf8ByteSize ≠ 0 →
      B.pango_fc_font_description_from_pattern xfont.pattern = some fd
        ∧ 0 ≤ B.pango_layout_get_size fd text
        ∧ B.pango_layout_get_size fd text < 2147483648) :
    drw_text B (some d) 0 0 0 0 0 (some text) 0 = .ok (measure B fd text, [])
    ∧ drw_fontset_getwidth B (some d) (some text) = .ok ((measure B fd text).toNat, [])
    ∧ (∀ s : Option (List Clr),
        drw_text B (some { d with scheme := s }) 0 0 0 0 0 (some text) 0
          = .ok (measure B fd text, [])) := by
  have key : ∀ d2 : Drw, d2.fonts = .node xfont pat fh next →
      drw_text B (some d2) 0 0 0 0 0 (some text) 0 = .ok (measure B fd text, []) := by
    intro d2 hf2
    rw [drw_text_measure_eq B d2 xfont pat fh next 0 text 0 hf2]
    by_cases hz : text.utf8ByteSize = 0
    · have h0 : utf8strlen text = 0 := by unfold utf8strlen; rw [hz]; rfl
      rw [if_neg (not_not.mpr h0)]
      simp only [measure, hz, if_true]
    · have h1 := (utf8strlen_ne_zero text hlen).mpr hz
      simp only [h1, ne_eq, not_false_eq_true, if_true, pango_get_extents, (hmeas hz).1,
        (get_text_width_eq_measure B fd text hz (hmeas hz).2.1 (hmeas hz).2.2).2]
  refine ⟨key d hf, ?_, fun s => key _ hf⟩
  have hm : 0 ≤ measure B fd text ∧ measure B fd text < 4294967296 := by
    unfold measure PANGO_SCALE
    split
    · omega
    · rename_i hz
      have := hmeas hz
      omega
  have ht : toU32 (measure B fd text) = (measure B fd text).toNat := by
    unfold toU32; omega
  unfold drw_fontset_getwidth
  simp only [hf, key d hf, ht]

/-- Witness for C2: measuring "Hi" on the example surface. -/
theorem drw_text_measure_mode_witness :
    drw_text demoBackend (some demoDrw) 0 0 0 0 0 (some "Hi") 0
      = .ok (measure demoBackend ⟨9⟩ "Hi", [])
    ∧ measure demoBackend ⟨9⟩ "Hi" = 16 :=
  ⟨(drw_text_measure_mode demoBackend demoDrw ⟨15, 5, ⟨9⟩⟩ (some ⟨9⟩) 20 .NULL "Hi" ⟨9⟩
      rfl (by decide) (fun _ => ⟨rfl, by decide, by decide⟩)).1, by decide⟩


/-- C10: a render-mode call of `drw_text` on a surface with a scheme of at
least two colours and a font set, for a non-null text (whose font description
and font load when the text is not empty), returns `x + w` reduced modulo 2^32
and read as an `int`, for the `x` and `w` passed in: the value does not depend
on the text, on `lpad`, on the font or on `invert`. -/
theorem drw_text_render_returns (B : Backend) (d : Drw) (scm : List Clr)
    (xfont : XftFont) (pat : Option FcPattern) (fh : Nat) (next : FntPtr)
    (x y : Int) (w h lpad : Nat) (text : String) (invert : Int)
    (hr : x ≠ 0 ∨ y ≠ 0 ∨ w ≠ 0 ∨ h ≠ 0) (hs : d.scheme = some scm) (hl : 2 ≤ scm.length)
    (hf : d.fonts = .node xfont pat fh next)
    (hpango : utf8strlen text ≠ 0 →
      ∃ fd, B.pango_fc_font_description_from_pattern xfont.pattern = some fd
        ∧ ∃ pf, B.pango_font_map_load_font fd = some pf) :
    ∃ ev, drw_text B (some d) x y w h lpad (some text) invert = .ok (toInt32 (x + w), ev) := by
  obtain ⟨bg, hbg⟩ := scheme_index scm hl (invert ≠ 0) ColFg ColBg (by decide) (by decide)
  obtain ⟨fg, hfg⟩ := scheme_index scm hl (invert ≠ 0) ColBg ColFg (by decide) (by decide)
  rw [drw_text_render_eq B d scm bg fg xfont pat fh next x y w h lpad text invert hr hs hf hbg hfg]
  by_cases hlen : utf8strlen text = 0
  · rw [if_neg (not_not.mpr hlen)]
    exact ⟨_, rfl⟩
  · obtain ⟨fd, hfd, pf, hpf⟩ := hpango hlen
    rw [if_pos hlen]
    simp only [pango_get_extents, x_blit, hfd, hpf]
    exact ⟨_, rfl⟩

/-- Witness for C10: the call `drw_text(drw, 0,0,200,20, 2, "Hi", 0)` on the
example surface returns 200. -/
theorem drw_text_render_returns_witness :
    ∃ ev, drw_text demoBackend (some demoDrw) 0 0 200 20 2 (some "Hi") 0
      = .ok (toInt32 (0 + (200 : Nat)), ev) :=
  drw_text_render_returns demoBackend demoDrw demoScheme ⟨15, 5, ⟨9⟩⟩ (some ⟨9⟩) 20 .NULL
    0 0 200 20 2 "Hi" 0 (Or.inr (Or.inr (Or.inl (by decide)))) rfl (by decide) rfl
    (fun _ => ⟨⟨9⟩, rfl, 9, rfl⟩)

/-- C3, as stated, fails: in the scenario `drw_text(drw, 0,0,200,20, 2, "Hi",
0)` with a measure of 16 for "Hi", the call returns 200, while
`2 + (200 - 2 - measure("Hi"))` is 184. -/
theorem drw_text_render_value_counterexample :
    drw_text demoBackend (some demoDrw) 0 0 200 20 2 (some "Hi") 0
      = .ok (200,
          [Event.XSetForeground 0, Event.XFillRectangle 0 0 200 20, Event.XftDrawCreate,
           Event.pango_xft_render ⟨16777215⟩ ⟨0, 1, 0⟩ 2 15,
           Event.pango_xft_render ⟨16777215⟩ ⟨1, 1, 0⟩ 10 15,
           Event.XftDrawDestroy])
    ∧ (0 + 2 : Int) + (200 - 2 - measure demoBackend ⟨9⟩ "Hi") = 184
    ∧ (200 : Int) ≠ (0 + 2 : Int) + (200 - 2 - measure demoBackend ⟨9⟩ "Hi") := by
  refine ⟨rfl, by decide, by decide⟩

/-- C3, amended: a render-mode call of `drw_text` with a valid surface,
scheme and font set and a non-empty text returns the origin after padding and
after the advance by the measured width, plus the remaining width,
`(x + lpad + measure) + (w - lpad - measure)`, in 32-bit arithmetic; when
`x + w` is an `int` this is the plain sum, and in the scenario
`drw_text(drw, 0,0,200,20, 2, "Hi", 0)` it is
`(2 + measure) + (200 - 2 - measure) = 200`. -/
theorem drw_text_render_value (B : Backend) (d : Drw) (scm : List Clr)
    (xfont : XftFont) (pat : Option FcPattern) (fh : Nat) (next : FntPtr)
    (x y : Int) (w h lpad : Nat) (text : String) (invert : Int)
    (fd : PangoFontDescription) (pf : Nat)
    (hr : x ≠ 0 ∨ y ≠ 0 ∨ w ≠ 0 ∨ h ≠ 0) (hs : d.scheme = some scm) (hl : 2 ≤ scm.length)
    (hf : d.fonts = .node xfont pat fh next)
    (hne : text.utf8ByteSize ≠ 0) (hlen : text.utf8ByteSize < 4294967296)
    (hfd : B.pango_fc_font_description_from_pattern xfont.pattern = some fd)
    (hpf : B.pango_font_map_load_font fd = some pf) :
    (∃ ev, drw_text B (some d) x y w h lpad (some text) invert
        = .ok (toInt32 ((x + lpad + measure B fd text)
                  + ((w : Int) - lpad - measure B fd text)), ev))
    ∧ (-2147483648 ≤ x + w → x + w < 2147483648 →
        ∃ ev, drw_text B (some d) x y w h lpad (some text) invert
          = .ok ((x + lpad + measure B fd text) + ((w : Int) - lpad - measure B fd text), ev))
    ∧ ((0 : Int) + (2 : Nat) + measure B fd text)
        + (((200 : Nat) : Int) - (2 : Nat) - measure B fd text) = 200 := by
  obtain ⟨bg, hbg⟩ := scheme_index scm hl (invert ≠ 0) ColFg ColBg (by decide) (by decide)
  obtain ⟨fg, hfg⟩ := scheme_index scm hl (invert ≠ 0) ColBg ColFg (by decide) (by decide)
  have hsum : (x + lpad + measure B fd text) + ((w : Int) - lpad - measure B fd text)
      = x + w := by ring
  have hlen2 := (utf8strlen_ne_zero text hlen).mpr hne
  have hcall : ∃ ev, drw_text B (some d) x y w h lpad (some text) invert
      = .ok (toInt32 (x + w), ev) := by
    rw [drw_text_render_eq B d scm bg fg xfont pat fh next x y w h lpad text invert
      hr hs hf hbg hfg, if_pos hlen2]
    simp only [pango_get_extents, x_blit, hfd, hpf]
    exact ⟨_, rfl⟩
  refine ⟨?_, ?_, by ring⟩
  · rw [hsum]; exact hcall
  · intro h1 h2
    rw [hsum]
    rw [toInt32_of_range h1 h2] at hcall
    exact hcall

/-- Witness for C3, amended: the scenario on the example surface. -/
theorem drw_text_render_value_witness :
    ∃ ev, drw_text demoBackend (some demoDrw) 0 0 200 20 2 (some "Hi") 0
      = .ok (((0 : Int) + (2 : Nat) + measure demoBackend ⟨9⟩ "Hi")
          + (((200 : Nat) : Int) - (2 : Nat) - measure demoBackend ⟨9⟩ "Hi"), ev) :=
  (drw_text_render_value demoBackend demoDrw demoScheme ⟨15, 5, ⟨9⟩⟩ (some ⟨9⟩) 20 .NULL
    0 0 200 20 2 "Hi" 0 ⟨9⟩ 9 (Or.inr (Or.inr (Or.inl (by decide)))) rfl (by decide) rfl
    (by decide) (by decide) rfl rfl).2.1 (by decide) (by decide)

/-- C6, as stated, fails: a render-mode call with the empty text on the
example surface fills the box and returns 200, not 0. -/
theorem drw_text_empty_counterexample :
    drw_text demoBackend (some demoDrw) 0 0 200 20 2 (some "") 0
      = .ok (200,
          [Event.XSetForeground 0, Event.XFillRectangle 0 0 200 20, Event.XftDrawCreate,
           Event.XftDrawDestroy])
    ∧ drw_text demoBackend (some demoDrw) 0 0 200 20 2 (some "") 0 ≠ .ok (0, []) := by
  have h : drw_text demoBackend (some demoDrw) 0 0 200 20 2 (some "") 0
      = .ok (200,
          [Event.XSetForeground 0, Event.XFillRectangle 0 0 200 20, Event.XftDrawCreate,
           Event.XftDrawDestroy]) := rfl
  refine ⟨h, ?_⟩
  rw [h]
  intro hc
  cases hc

/-- C6, amended: for the empty text on a surface with a font set, a
measure-mode call of `drw_text` returns 0 and makes no request; a render-mode
call (with a scheme of at least two colours) sets the background colour, fills
the box (x, y, w, h), creates and destroys the Xft drawable, renders no text,
and returns `x + w` reduced modulo 2^32 and read as an `int`. -/
theorem drw_text_empty (B : Backend) (d : Drw)
    (xfont : XftFont) (pat : Option FcPattern) (fh : Nat) (next : FntPtr)
    (x y : Int) (w h lpad : Nat) (text : String) (invert : Int)
    (hf : d.fonts = .node xfont pat fh next) (he : text.utf8ByteSize = 0) :
    drw_text B (some d) 0 0 0 0 lpad (some text) invert = .ok (0, [])
    ∧ (∀ scm, d.scheme = some scm → 2 ≤ scm.length → (x ≠ 0 ∨ y ≠ 0 ∨ w ≠ 0 ∨ h ≠ 0) →
        ∃ bg, scm[if invert ≠ 0 then ColFg else ColBg]? = some bg
          ∧ drw_text B (some d) x y w h lpad (some text) invert
              = .ok (toInt32 (x + w),
                  [Event.XSetForeground bg.pixel, Event.XFillRectangle x y w h,
                   Event.XftDrawCreate, Event.XftDrawDestroy])) := by
  have h0 : utf8strlen text = 0 := by unfold utf8strlen; rw [he]; rfl
  constructor
  · rw [drw_text_measure_eq B d xfont pat fh next lpad text invert hf,
      if_neg (not_not.mpr h0)]
  · intro scm hs hl hr
    obtain ⟨bg, hbg⟩ := scheme_index scm hl (invert ≠ 0) ColFg ColBg (by decide) (by decide)
    obtain ⟨fg, hfg⟩ := scheme_index scm hl (invert ≠ 0) ColBg ColFg (by decide) (by decide)
    refine ⟨bg, hbg, ?_⟩
    rw [drw_text_render_eq B d scm bg fg xfont pat fh next x y w h lpad text invert
      hr hs hf hbg hfg, if_neg (not_not.mpr h0)]

/-- Witness for C6, amended: the empty text on the example surface, in both
modes. -/
theorem drw_text_empty_witness :
    drw_text demoBackend (some demoDrw) 0 0 0 0 2 (some "") 0 = .ok (0, [])
    ∧ ∃ bg, demoScheme[if (0 : Int) ≠ 0 then ColFg else ColBg]? = some bg
        ∧ drw_text demoBackend (some demoDrw) 0 0 200 20 2 (some "") 0
            = .ok (toInt32 (0 + (200 : Nat)),
                [Event.XSetForeground bg.pixel, Event.XFillRectangle 0 0 200 20,
                 Event.XftDrawCreate, Event.XftDrawDestroy]) :=
  ⟨(drw_text_empty demoBackend demoDrw ⟨15, 5, ⟨9⟩⟩ (some ⟨9⟩) 20 .NULL 0 0 200 20 2 "" 0
      rfl (by decide)).1,
   (drw_text_empty demoBackend demoDrw ⟨15, 5, ⟨9⟩⟩ (some ⟨9⟩) 20 .NULL 0 0 200 20 2 "" 0
      rfl (by decide)).2 demoScheme rfl (by decide) (Or.inr (Or.inr (Or.inl (by decide))))⟩

/-- C9, the code at a box lower than the font: with a box height of 10 and a
font of ascent 15 and line height 20, `drw_text(drw, 0,0,200,10, 2, "Hi", 0)`
renders at the baseline -2147483638, because `h - usedfont->h` is computed in
`unsigned int`; the centred baseline `y + (h - fontLineHeight)/2 + ascent`
with a signed difference is 0 + (10 - 20)/2 + 15 = 10. -/
theorem drw_text_baseline_tall_font :
    drw_text demoBackend (some demoDrw) 0 0 200 10 2 (some "Hi") 0
      = .ok (200,
          [Event.XSetForeground 0, Event.XFillRectangle 0 0 200 10, Event.XftDrawCreate,
           Event.pango_xft_render ⟨16777215⟩ ⟨0, 1, 0⟩ 2 (-2147483638),
           Event.pango_xft_render ⟨16777215⟩ ⟨1, 1, 0⟩ 10 (-2147483638),
           Event.XftDrawDestroy])
    ∧ (0 : Int) + (10 - 20) / 2 + 15 = 10
    ∧ toInt32 ((0 : Int) + (toU32 ((10 : Int) - 20) / 2 : Nat) + 15) = -2147483638 := by
  refine ⟨rfl, by decide, by decide⟩

/-! ### Measured width and render advance -/

theorem sum_div_bounds (l : List Int) (hnn : ∀ e ∈ l, 0 ≤ e) :
    0 ≤ l.sum
    ∧ (l.map (fun e => e / 1024)).sum ≤ l.sum / 1024
    ∧ l.sum / 1024 ≤ (l.map (fun e => e / 1024)).sum + ((l.length - 1 : Nat) : Int) := by
  induction l with
  | nil => simp
  | cons e es ih =>
    have he : 0 ≤ e := hnn e (List.mem_cons_self _ _)
    obtain ⟨h0, h1, h2⟩ := ih (fun a ha => hnn a (List.mem_cons_of_mem _ ha))
    simp only [List.sum_cons, List.map_cons, List.length_cons, Nat.add_sub_cancel]
    cases es with
    | nil =>
      simp only [List.sum_nil, List.map_nil, List.length_nil] at *
      omega
    | cons e2 es2 =>
      simp only [List.length_cons, Nat.add_sub_cancel] at h2 ⊢
      omega

theorem sum_div_exact (l : List Int) (hdvd : ∀ e ∈ l, (1024 : Int) ∣ e) :
    l.sum / 1024 = (l.map (fun e => e / 1024)).sum := by
  induction l with
  | nil => simp
  | cons e es ih =>
    have he : (1024 : Int) ∣ e := hdvd e (List.mem_cons_self _ _)
    have ih2 := ih (fun a ha => hdvd a (List.mem_cons_of_mem _ ha))
    simp only [List.sum_cons, List.map_cons]
    omega

theorem x_blit_loop_advance (B : Backend) (col : Clr) (y : Int) (items : List PangoItem) :
    ∀ x : Int, (∀ it ∈ items, 0 ≤ runExtent B it ∧ runExtent B it < 2147483648) →
      -2147483648 ≤ x → x + (items.map (runExtent B)).sum < 2147483648 →
      (x_blit_loop B col y items x).1
        = x + (items.map (fun it => runExtent B it / 1024)).sum := by
  induction items with
  | nil => intro x _ _ _; simp [x_blit_loop]
  | cons it its ih =>
    intro x hnn hx hfit
    obtain ⟨he0, he1⟩ := hnn it (List.mem_cons_self _ _)
    have hrest : ∀ a ∈ its, 0 ≤ runExtent B a ∧ runExtent B a < 2147483648 :=
      fun a ha => hnn a (List.mem_cons_of_mem _ ha)
    have hs0 : 0 ≤ (its.map (runExtent B)).sum :=
      (sum_div_bounds _ (by
        intro e hmem
        obtain ⟨a, ha, rfl⟩ := List.mem_map.mp hmem
        exact (hrest a ha).1)).1
    simp only [List.map_cons, List.sum_cons] at hfit ⊢
    have h1 : toInt32 (runExtent B it) = runExtent B it :=
      toInt32_of_range (by omega) he1
    have h2 : (runExtent B it).tdiv PANGO_SCALE = runExtent B it / 1024 := by
      unfold PANGO_SCALE
      exact Int.tdiv_eq_ediv he0 (by decide)
    have h3 : toInt32 (x + runExtent B it / 1024) = x + runExtent B it / 1024 :=
      toInt32_of_range (by omega) (by omega)
    simp only [x_blit_loop, h1, h2, h3]
    rw [ih (x + runExtent B it / 1024) hrest (by omega) (by omega)]
    ring


/-- C4, as stated, fails: with two runs of 512 layout units each and a layout
width of 1024, the sum of the runs' extents, the measured width is 1 pixel
while the render loop advances by 0 + 0 = 0 pixels. -/
theorem get_text_width_blit_counterexample :
    halfPixelBackend.pango_layout_get_size ⟨9⟩ "ab"
      = ((halfPixelBackend.pango_itemize ⟨9⟩ "ab").map (runExtent halfPixelBackend)).sum
    ∧ get_text_width halfPixelBackend ⟨9⟩ "ab" = 1
    ∧ (x_blit_loop halfPixelBackend ⟨0⟩ 0 (halfPixelBackend.pango_itemize ⟨9⟩ "ab") 0).1 - 0 = 0
    ∧ (get_text_width halfPixelBackend ⟨9⟩ "ab" : Int)
        ≠ (x_blit_loop halfPixelBackend ⟨0⟩ 0 (halfPixelBackend.pango_itemize ⟨9⟩ "ab") 0).1 - 0 := by
  refine ⟨by decide, by decide, by decide, by decide⟩

/-- C4, amended: when the layout's total width is the sum of the runs'
extents, each extent a non-negative `int`, and the render loop starts at an
`x` from which that width still fits in an `int`, the total advance of the
render loop of `x_blit` is at most the measured width of `get_text_width`, and
falls short of it by at most the number of runs minus one; the two are equal
when there is at most one run, and when every extent is a multiple of
`PANGO_SCALE`. -/
theorem get_text_width_blit (B : Backend) (col : Clr) (fd : PangoFontDescription)
    (text : String) (x y : Int)
    (hsum : B.pango_layout_get_size fd text
      = ((B.pango_itemize fd text).map (runExtent B)).sum)
    (hnn : ∀ it ∈ B.pango_itemize fd text, 0 ≤ runExtent B it ∧ runExtent B it < 2147483648)
    (hx : -2147483648 ≤ x) (hfit : x + B.pango_layout_get_size fd text < 2147483648) :
    (x_blit_loop B col y (B.pango_itemize fd text) x).1 - x ≤ get_text_width B fd text
    ∧ (get_text_width B fd text : Int)
        ≤ (x_blit_loop B col y (B.pango_itemize fd text) x).1 - x
          + (((B.pango_itemize fd text).length - 1 : Nat) : Int)
    ∧ ((B.pango_itemize fd text).length ≤ 1 →
        (get_text_width B fd text : Int)
          = (x_blit_loop B col y (B.pango_itemize fd text) x).1 - x)
    ∧ ((∀ it ∈ B.pango_itemize fd text, (PANGO_SCALE : Int) ∣ runExtent B it) →
        (get_text_width B fd text : Int)
          = (x_blit_loop B col y (B.pango_itemize fd text) x).1 - x) := by
  have hadv := x_blit_loop_advance B col y (B.pango_itemize fd text) x hnn hx
    (by rw [← hsum]; exact hfit)
  have hmem : ∀ e ∈ (B.pango_itemize fd text).map (runExtent B), 0 ≤ e := by
    intro e he
    obtain ⟨a, ha, rfl⟩ := List.mem_map.mp he
    exact (hnn a ha).1
  obtain ⟨b0, b1, b2⟩ := sum_div_bounds _ hmem
  simp only [List.map_map, List.length_map] at b1 b2
  rw [← hsum] at b0 b1 b2
  have hmap : (List.map ((fun e => e / 1024) ∘ runExtent B) (B.pango_itemize fd text)).sum
      = (List.map (fun it => runExtent B it / 1024) (B.pango_itemize fd text)).sum := rfl
  rw [hmap] at b1 b2
  have hw : (get_text_width B fd text : Int) = B.pango_layout_get_size fd text / 1024 := by
    unfold get_text_width toU32 PANGO_SCALE
    omega
  refine ⟨by omega, by omega, fun h1 => by omega, fun hd => ?_⟩
  have hex := sum_div_exact ((B.pango_itemize fd text).map (runExtent B)) (by
    intro e he
    obtain ⟨a, ha, rfl⟩ := List.mem_map.mp he
    exact hd a ha)
  rw [List.map_map, ← hsum, hmap] at hex
  omega

/-- Witness for C4, amended: the text "Hi" under the example backend, two
runs of 8 pixels each, rendered from x = 2. -/
theorem get_text_width_blit_witness :
    (get_text_width demoBackend ⟨9⟩ "Hi" : Int)
      = (x_blit_loop demoBackend ⟨0⟩ 15 (demoBackend.pango_itemize ⟨9⟩ "Hi") 2).1 - 2 :=
  (get_text_width_blit demoBackend ⟨0⟩ ⟨9⟩ "Hi" 2 15 (by decide) (by decide) (by decide)
    (by decide)).2.2.2 (by decide)


/-! ### Colour schemes -/

theorem drw_scm_create_loop (B : Backend) (d : Drw) (names : List String) (count : Nat)
    (hc : count ≤ names.length)
    (hall : ∀ i, i < count →
      ∃ name c, names[i]? = some name ∧ B.XftColorAllocName name = some c)
    (k : Nat) (hk : k ≤ count) :
    (List.range k).foldlM (drw_scm_create_body B (some d) (names.map some))
        (List.replicate count (⟨0⟩ : Clr), [])
      = .ok ((names.take k).map (fun n => (B.XftColorAllocName n).getD ⟨0⟩)
              ++ List.replicate (count - k) ⟨0⟩,
             (names.take k).map Event.XftColorAllocName) := by
  induction k with
  | zero => simp; rfl
  | succ k ih =>
    obtain ⟨name, c, hn, hcol⟩ := hall k (by omega)
    rw [List.range_succ, List.foldlM_append, ih (by omega)]
    simp only [List.foldlM_cons, List.foldlM_nil, bind, Except.bind]
    have hlenA : ((names.take k).map (fun n => (B.XftColorAllocName n).getD ⟨0⟩)).length = k := by
      rw [List.length_map, List.length_take]; omega
    have hget : ((names.take k).map (fun n => (B.XftColorAllocName n).getD ⟨0⟩)
        ++ List.replicate (count - k) (⟨0⟩ : Clr))[k]? = some ⟨0⟩ := by
      rw [List.getElem?_append_right (by omega), hlenA, Nat.sub_self, List.getElem?_replicate,
        if_pos (by omega)]
    have hrep : List.replicate (count - k) (⟨0⟩ : Clr)
        = ⟨0⟩ :: List.replicate (count - (k + 1)) ⟨0⟩ := by
      have : count - k = (count - (k + 1)) + 1 := by omega
      rw [this, List.replicate_succ]
    have hset : (((names.take k).map (fun n => (B.XftColorAllocName n).getD ⟨0⟩)
        ++ List.replicate (count - k) (⟨0⟩ : Clr)).set k c)
        = (names.take (k + 1)).map (fun n => (B.XftColorAllocName n).getD ⟨0⟩)
          ++ List.replicate (count - (k + 1)) ⟨0⟩ := by
      rw [List.set_append, if_neg (by omega), hlenA, Nat.sub_self, hrep, List.set_cons_zero,
        List.take_succ, hn]
      simp [hcol]
    have hev : (names.take k).map Event.XftColorAllocName ++ [Event.XftColorAllocName name]
        = (names.take (k + 1)).map Event.XftColorAllocName := by
      rw [List.take_succ, hn]; simp
    unfold drw_scm_create_body
    simp only [List.getElem?_map, hn, Option.map_some', hget, drw_clr_create, hcol, hset, hev]
    rfl


/-- C7: `drw_scm_create` with a count below 2 returns null and makes no
allocation request, whatever the surface and the names; with a count of at
least 2, a surface and an array whose first `clrcount` names are allocated by
the backend, it returns an array of exactly `clrcount` colours, the i-th being
the colour allocated from the i-th name, after one allocation request per
name in order. -/
theorem drw_scm_create_count (B : Backend) (drw : Option Drw)
    (clrnames : Option (List (Option String))) (d : Drw) (names : List String)
    (clrcount : Nat) :
    (clrcount < 2 → drw_scm_create B drw clrnames clrcount = .ok (none, []))
    ∧ (2 ≤ clrcount →
        (∀ i, i < clrcount →
          ∃ name c, names[i]? = some name ∧ B.XftColorAllocName name = some c) →
        ∃ scm, drw_scm_create B (some d) (some (names.map some)) clrcount
            = .ok (some scm, (names.take clrcount).map Event.XftColorAllocName)
          ∧ scm.length = clrcount
          ∧ ∀ i, i < clrcount →
              ∃ name c, names[i]? = some name ∧ B.XftColorAllocName name = some c
                ∧ scm[i]? = some c) := by
  constructor
  · intro hlt
    unfold drw_scm_create
    cases drw with
    | none => rfl
    | some d0 =>
      cases clrnames with
      | none => rfl
      | some ns => simp only [hlt, if_true]
  · intro hge hall
    have hc : clrcount ≤ names.length := by
      obtain ⟨name, c, hn, -⟩ := hall (clrcount - 1) (by omega)
      have := (List.getElem?_eq_some.mp hn).1
      omega
    refine ⟨(names.take clrcount).map (fun n => (B.XftColorAllocName n).getD ⟨0⟩), ?_, ?_, ?_⟩
    · unfold drw_scm_create
      simp only [Nat.not_lt.mpr hge, if_false,
        drw_scm_create_loop B d names clrcount hc hall clrcount (le_refl _), Nat.sub_self,
        List.replicate_zero, List.append_nil]
    · rw [List.length_map, List.length_take]; omega
    · intro i hi
      obtain ⟨name, c, hn, hcol⟩ := hall i hi
      refine ⟨name, c, hn, hcol, ?_⟩
      rw [List.getElem?_map, List.getElem?_take_of_lt hi, hn]
      simp [hcol]

/-- Witness for C7: the scheme of "white" and "black" under the example
backend. -/
theorem drw_scm_create_count_witness :
    ∃ scm, drw_scm_create demoBackend (some demoDrw) (some (["white", "black"].map some)) 2
        = .ok (some scm, (["white", "black"].take 2).map Event.XftColorAllocName)
      ∧ scm.length = 2 := by
  have hall : ∀ i, i < 2 →
      ∃ name c, ["white", "black"][i]? = some name
        ∧ demoBackend.XftColorAllocName name = some c := by
    intro i hi
    match i, hi with
    | 0, _ => exact ⟨"white", ⟨16777215⟩, rfl, by decide⟩
    | 1, _ => exact ⟨"black", ⟨0⟩, rfl, by decide⟩
  obtain ⟨scm, h1, h2, -⟩ :=
    (drw_scm_create_count demoBackend none none demoDrw ["white", "black"] 2).2 (by decide) hall
  exact ⟨scm, h1, h2⟩


/-! ### Text: where the runs are rendered -/

theorem x_blit_loop_events (B : Backend) (col : Clr) (y : Int) (items : List PangoItem) :
    ∀ x : Int, ∀ ev ∈ (x_blit_loop B col y items x).2,
      ∃ item xi, ev = Event.pango_xft_render col item xi y := by
  induction items with
  | nil => intro x ev hev; simp [x_blit_loop] at hev
  | cons it its ih =>
    intro x ev hev
    simp only [x_blit_loop, List.mem_cons] at hev
    rcases hev with h | h
    · exact ⟨it, x, h⟩
    · exact ih _ ev h

/-- In render mode, for a non-empty text and a box at least as high as the
head font, `drw_text` fills the box and renders the runs from the horizontal
origin `x + lpad` at the baseline `y + (h - fontLineHeight)/2 + ascent` (both
read as `int`), every run at that baseline. -/
theorem drw_text_baseline_fits (B : Backend) (d : Drw) (scm : List Clr)
    (xfont : XftFont) (pat : Option FcPattern) (fh : Nat) (next : FntPtr)
    (x y : Int) (w h lpad : Nat) (text : String) (invert : Int)
    (fd : PangoFontDescription) (pf : Nat)
    (hr : x ≠ 0 ∨ y ≠ 0 ∨ w ≠ 0 ∨ h ≠ 0) (hs : d.scheme = some scm) (hl : 2 ≤ scm.length)
    (hf : d.fonts = .node xfont pat fh next)
    (hne : text.utf8ByteSize ≠ 0) (hlen : text.utf8ByteSize < 4294967296)
    (hfd : B.pango_fc_font_description_from_pattern xfont.pattern = some fd)
    (hpf : B.pango_font_map_load_font fd = some pf)
    (hfit : fh ≤ h) (hh : h < 4294967296) :
    ∃ bg fg, scm[if invert ≠ 0 then ColFg else ColBg]? = some bg
      ∧ scm[if invert ≠ 0 then ColBg else ColFg]? = some fg
      ∧ drw_text B (some d) x y w h lpad (some text) invert
          = .ok (toInt32 (x + w),
              [Event.XSetForeground bg.pixel, Event.XFillRectangle x y w h,
               Event.XftDrawCreate]
              ++ (x_blit_loop B fg (toInt32 (y + ((h - fh) / 2 : Nat) + xfont.ascent))
                    (B.pango_itemize fd text) (toInt32 (x + lpad))).2
              ++ [Event.XftDrawDestroy])
      ∧ ∀ ev ∈ (x_blit_loop B fg (toInt32 (y + ((h - fh) / 2 : Nat) + xfont.ascent))
                    (B.pango_itemize fd text) (toInt32 (x + lpad))).2,
          ∃ item xi, ev = Event.pango_xft_render fg item xi
            (toInt32 (y + ((h - fh) / 2 : Nat) + xfont.ascent)) := by
  obtain ⟨bg, hbg⟩ := scheme_index scm hl (invert ≠ 0) ColFg ColBg (by decide) (by decide)
  obtain ⟨fg, hfg⟩ := scheme_index scm hl (invert ≠ 0) ColBg ColFg (by decide) (by decide)
  refine ⟨bg, fg, hbg, hfg, ?_, x_blit_loop_events B fg _ _ _⟩
  have hlen2 := (utf8strlen_ne_zero text hlen).mpr hne
  have hsub : toU32 ((h : Int) - fh) = h - fh := by unfold toU32; omega
  rw [drw_text_render_eq B d scm bg fg xfont pat fh next x y w h lpad text invert
    hr hs hf hbg hfg, if_pos hlen2]
  simp only [pango_get_extents, x_blit, hfd, hpf, hsub]

end DrwC
